import Mathlib

/-!
Shallow embedding of the analogz zero-copy text-buffer engine.

The repository ships two thin Python wrapper modules
(src/python/analogz and src/py-bind/python/analogz) over a native core
(the _lib_rs module: PyBuffer, PyArcStr, PyLineIter, PyRegex).  The native
core is not part of the source tree, so its operations are modelled from
the spec, as the doc comments below record; the Python wrapper logic is
embedded directly from the source files.

Bytes are modelled as natural numbers below 256; text content is a list of
bytes.  Arena identity (pointer identity of the shared root) is modelled
by a numeric id.
-/

/-- Modelled from the spec: the Arena owns an immutable byte sequence; the
numeric id stands for pointer identity of the shared root, used when two
Views are compared for relative position.  (The Arena type lives in the
native core, absent from the source tree.) -/
structure Arena where
  id : Nat
  content : List Nat
  deriving DecidableEq

/-- Modelled from the spec: a View (ArcStr) is a shared reference into an
Arena byte range, a pair of absolute byte offsets with start at most stop.
(PyArcStr lives in the native core, absent from the source tree.) -/
structure View where
  arena : Arena
  start : Nat
  stop : Nat
  deriving DecidableEq

/-- Python-level exceptions together with the spec error taxonomy. -/
inductive PyErr where
  | rangeError
  | indexError (msg : String)
  | typeError (msg : String)
  | attributeError (msg : String)
  | assertionError (msg : String)
  | crossArenaError
  deriving DecidableEq

/-- A Python index argument: an int, a slice object with optional start,
stop and step fields, or any other object, carried here as its type name. -/
inductive PyIndex where
  | int (n : Int)
  | slice (start stop step : Option Int)
  | other (typeName : String)

/-- Materialize the byte range r of content: the bytes from the first
component (inclusive) to the second (exclusive). -/
def materializeRange (content : List Nat) (r : Nat × Nat) : List Nat :=
  (content.drop r.1).take (r.2 - r.1)

/-- Modelled from the spec: materializing a View copies the bytes of its
range out of the Arena (PyArcStr.to_string). -/
def materializeV (v : View) : List Nat :=
  materializeRange v.arena.content (v.start, v.stop)

/-- A UTF-8 continuation byte lies in the interval from 128 up to 192. -/
def isCont (b : Nat) : Bool := 128 ≤ b && b < 192

/-- Modelled from the spec: position i is a codepoint boundary of content
when the byte there is not a continuation byte, or i is exactly the length
of content. -/
def isCharBoundary (content : List Nat) (i : Nat) : Bool :=
  match content[i]? with
  | some b => ! isCont b
  | none => i == content.length

/-- Modelled from the spec: char_count is the number of Unicode scalar
values in a byte sequence; for valid UTF-8 this is the number of bytes
that are not continuation bytes. -/
def charCountBytes (l : List Nat) : Nat :=
  (l.filter (fun b => ! isCont b)).length

/-- Modelled from the spec: PyArcStr.char_count over the bytes of the
View range. -/
def View.char_count (v : View) : Nat :=
  charCountBytes (materializeV v)

/-- Modelled from the spec: PyArcStr.slice narrows a View to the range
from start+lo to start+hi; RangeError when lo exceeds hi, when start+hi
passes the view stop or the Arena content length, or when either cut point
is not a codepoint boundary. -/
def View.sliceCore (v : View) (lo hi : Nat) : Except PyErr View :=
  if hi < lo then .error .rangeError
  else if v.stop < v.start + hi ∨ v.arena.content.length < v.start + hi then
    .error .rangeError
  else if ¬ (isCharBoundary v.arena.content (v.start + lo) = true ∧
             isCharBoundary v.arena.content (v.start + hi) = true) then
    .error .rangeError
  else .ok ⟨v.arena, v.start + lo, v.start + hi⟩

/-- Modelled from the spec: the native slice entry point as reached from
the wrapper, where a missing bound (Python None) means 0 or the byte
length of the view, and a negative bound is a RangeError. -/
def View.sliceV (v : View) (lo hi : Option Int) : Except PyErr View :=
  let lo := lo.getD 0
  let hi := hi.getD ((v.stop - v.start : Nat) : Int)
  if lo < 0 ∨ hi < lo then .error .rangeError
  else v.sliceCore lo.toNat hi.toNat

/-- Modelled from the spec: PyArcStr.split_at partitions the view range at
absolute-relative offset pos, failing under the same boundary constraints
as slice. -/
def View.split_at (v : View) (pos : Int) : Except PyErr (View × View) :=
  if pos < 0 ∨ v.stop < v.start + pos.toNat then .error .rangeError
  else if ¬ isCharBoundary v.arena.content (v.start + pos.toNat) = true then
    .error .rangeError
  else .ok (⟨v.arena, v.start, v.start + pos.toNat⟩,
            ⟨v.arena, v.start + pos.toNat, v.stop⟩)

/-- Modelled from the spec: rel_position requires both Views to share the
same Arena (identity of the shared root) and then returns the signed
difference of the start offsets; on different Arenas the call surfaces
CrossArenaError. -/
def View.rel_position (v anchor : View) : Except PyErr Int :=
  if v.arena.id = anchor.arena.id then .ok ((v.start : Int) - (anchor.start : Int))
  else .error .crossArenaError

/-- Modelled from the spec: literal containment, true when the needle
bytes occur as a contiguous subsequence of the haystack bytes. -/
def containsBytes (hay needle : List Nat) : Bool :=
  (List.range (hay.length + 1)).any
    (fun i => (hay.drop i).take needle.length == needle)

/-- Modelled from the spec: PyArcStr.contains on the materialized byte
ranges of the two views. -/
def View.containsCore (hay needle : View) : Bool :=
  containsBytes (materializeV hay) (materializeV needle)

/-- Newline terminator byte. -/
def nlByte : Nat := 10

/-- Reference definition following the spec wording for lines: scanning
for terminators, each line excludes its terminator, a trailing terminator
does not produce an extra empty final line, and content that does not end
with a terminator still yields its final line.  Structural recursion on a
fuel argument that bounds the length of the remaining input. -/
def linesOfF : Nat → List Nat → List (List Nat)
  | _, [] => []
  | 0, _ :: _ => []
  | fuel + 1, b :: rest =>
      (b :: rest).takeWhile (fun x => x != nlByte) ::
        linesOfF fuel (((b :: rest).dropWhile (fun x => x != nlByte)).drop 1)

/-- The lines of a byte content, fuel instantiated to the length. -/
def linesOf (content : List Nat) : List (List Nat) :=
  linesOfF content.length content

/-- Modelled from the spec: the LineIndex scan locates terminator
positions in one pass and records one (start, stop) byte range per line,
boundaries excluding the terminator.  Same fuel pattern as linesOfF. -/
def lineRangesF : Nat → List Nat → Nat → List (Nat × Nat)
  | _, [], _ => []
  | 0, _ :: _, _ => []
  | fuel + 1, b :: rest, pos =>
      (pos, pos + ((b :: rest).takeWhile (fun x => x != nlByte)).length) ::
        lineRangesF fuel (((b :: rest).dropWhile (fun x => x != nlByte)).drop 1)
          (pos + ((b :: rest).takeWhile (fun x => x != nlByte)).length + 1)

/-- The LineIndex of a byte content, fuel instantiated to the length. -/
def lineRanges (content : List Nat) : List (Nat × Nat) :=
  lineRangesF content.length content 0

/-- Modelled from the spec: a Buffer aggregates the shared Arena and
LineIndex with a line window given by line_offset and line_count. -/
structure Buffer where
  arena : Arena
  lineIndex : List (Nat × Nat)
  lineOffset : Nat
  lineCount : Nat
  deriving DecidableEq

/-- Modelled from the spec: PyBuffer construction stores the bytes in a
fresh Arena and computes the LineIndex once. -/
def mkBuffer (content : List Nat) (aid : Nat) : Buffer :=
  ⟨⟨aid, content⟩, lineRanges content, 0, (lineRanges content).length⟩

/-- Modelled from the spec: PyBuffer.get returns the View for line i of
the window and an IndexError outside the window. -/
def Buffer.get (b : Buffer) (i : Int) : Except PyErr View :=
  if 0 ≤ i ∧ i < (b.lineCount : Int) then
    match b.lineIndex[b.lineOffset + i.toNat]? with
    | some r => .ok ⟨b.arena, r.1, r.2⟩
    | none => .error (.indexError "index out of range")
  else .error (.indexError "index out of range")

/-- Modelled from the spec: PyBuffer.slice shares the Arena and LineIndex
and narrows the window: line_offset grows by lo and the new line_count is
min hi line_count minus lo, hi being clamped; a missing bound means 0 or
the current line_count; fails when lo is negative or exceeds hi. -/
def Buffer.sliceB (b : Buffer) (lo hi : Option Int) : Except PyErr Buffer :=
  let lo := lo.getD 0
  let hi := hi.getD (b.lineCount : Int)
  if lo < 0 ∨ hi < lo then .error .rangeError
  else .ok { b with lineOffset := b.lineOffset + lo.toNat,
                    lineCount := min hi.toNat b.lineCount - lo.toNat }

/-- The lines a Buffer window denotes: the windowed ranges materialized
from its Arena. -/
def bufLines (b : Buffer) : List (List Nat) :=
  ((b.lineIndex.drop b.lineOffset).take b.lineCount).map
    (materializeRange b.arena.content)

/-- The guard in all three __getitem__ methods of the source reads
assert slice.step is not None: there slice.step is an attribute of the
builtin slice class itself, not of the instance idx, and that class
attribute is a descriptor object which is never None, so the assertion
holds for every request and the step of the instance is never inspected. -/
def sliceClassStep_isNotNone : Bool := true

/-- What a Buffer index operation produces: a sub-Buffer or a line View. -/
inductive BufItem where
  | buf (b : Buffer)
  | str (v : View)
  deriving DecidableEq

/-- The Buffer.__getitem__ of the source (identical in both wrapper
variants): a slice index runs the class-attribute assertion and then
forwards start and stop, never the step, to the native slice; an int index
forwards to get; any other index raises IndexError naming the index
type. -/
def Buffer.getitem (b : Buffer) : PyIndex → Except PyErr BufItem
  | .int n => (b.get n).map BufItem.str
  | .slice lo hi _step =>
      if sliceClassStep_isNotNone then (b.sliceB lo hi).map BufItem.buf
      else .error (.assertionError "Step is not supported")
  | .other t => .error (.indexError ("Invalid index type: " ++ t))

/-- The ArcStr.__getitem__ of the py-bind source: a slice index runs the
same class-attribute assertion and forwards start and stop to the native
slice; an int index i forwards slice with bounds i and i+1; any other
index raises IndexError naming the index type. -/
def ArcStr.getitem (v : View) : PyIndex → Except PyErr View
  | .int n => v.sliceV (some n) (some (n + 1))
  | .slice lo hi _step =>
      if sliceClassStep_isNotNone then v.sliceV lo hi
      else .error (.assertionError "Step is not supported")
  | .other t => .error (.indexError ("Invalid index type: " ++ t))

/-- An argument passed to ArcStr.contains: a str (its UTF-8 bytes), an
analogz.ArcStr wrapper object, or a raw PyArcStr extension object. -/
inductive ContainsArg where
  | text (s : List Nat)
  | wrapperView (v : View)
  | rawView (v : View)

/-- Modelled from the spec: the PyArcStr constructor builds a fresh-arena
view over the given text; the spec gives no construction of a View from a
wrapper object, so a non-str argument is a TypeError.  (The constructor
lives in the native core, absent from the source tree.) -/
def PyArcStr.new (arg : ContainsArg) (freshId : Nat) : Except PyErr View :=
  match arg with
  | .text s => .ok ⟨⟨freshId, s⟩, 0, s.length⟩
  | _ => .error (.typeError "argument must be str")

/-- The ArcStr.contains of the py-bind source: the isinstance test checks
PyArcStr, so a str or a wrapper ArcStr takes the branch that passes the
argument to the PyArcStr constructor, while a raw PyArcStr takes the
branch reading the attribute written other.__arc_str, which name-mangles
to _ArcStr__arc_str, an attribute the extension type does not have. -/
def ArcStr.contains (self : View) (other : ContainsArg) (freshId : Nat) :
    Except PyErr Bool :=
  match other with
  | .rawView _ => .error (.attributeError "_ArcStr__arc_str")
  | o => (PyArcStr.new o freshId).map (fun n => View.containsCore self n)

/-- A compiled pattern object; objId models Python object identity, tagged
with the value of the module parse counter at construction time. -/
structure PyRegex where
  pattern : String
  objId : Nat
  deriving DecidableEq

/-- The module-level state the memoization claim observes: how many times
a pattern has been parsed, that is how often the PyRegex constructor
ran. -/
structure RegexModuleState where
  parseCount : Nat
  deriving DecidableEq

/-- The compile_regex of the source, in both wrapper variants: the line
functools.lru_cache on the line directly above the def is a bare
expression statement, not a decorator, so the function is not wrapped and
every call runs the body, constructing and parsing a fresh PyRegex. -/
def compile_regex (p : String) (st : RegexModuleState) :
    PyRegex × RegexModuleState :=
  (⟨p, st.parseCount⟩, ⟨st.parseCount + 1⟩)

/-- Byte content of an ASCII string; for ASCII every char is one UTF-8
byte, so the char codes are the bytes. -/
def strBytes (s : String) : List Nat := s.toList.map Char.toNat

/-- The arena of the three-line demo content used across the tests. -/
def demoArena : Arena := ⟨0, strBytes "Line1\nLine2\nLine3"⟩

/-- The demo buffer over the three-line content. -/
def demoBuffer : Buffer := mkBuffer (strBytes "Line1\nLine2\nLine3") 0

/-- Line 0 of the demo content as a View. -/
def demoLine0 : View := ⟨demoArena, 0, 5⟩

/-- Line 1 of the demo content as a View. -/
def demoLine1 : View := ⟨demoArena, 6, 11⟩

/-- A second arena with a different identity. -/
def otherArena : Arena := ⟨1, strBytes "x"⟩

/-- The arena of the sentence demo content. -/
def thisArena : Arena := ⟨0, strBytes "This is new"⟩

/-- The whole sentence demo content as a View. -/
def thisView : View := ⟨thisArena, 0, 11⟩

/-- The sub-view of thisView holding a space, the word is and a space. -/
def isView : View := ⟨thisArena, 4, 8⟩

/-- C1: the wrappers never reject a step: for every slice request,
whatever the step field holds, Buffer and View indexing run the native
slice on start and stop, identically to a request with no step, because
the guard asserts on the slice class attribute rather than on the
instance; concretely a step-2 request on the demo buffer succeeds. -/
theorem slice_step_never_rejected (b : Buffer) (v : View) (lo hi st : Option Int) :
    Buffer.getitem b (.slice lo hi st) = (b.sliceB lo hi).map BufItem.buf ∧
    Buffer.getitem b (.slice lo hi st) = Buffer.getitem b (.slice lo hi none) ∧
    ArcStr.getitem v (.slice lo hi st) = v.sliceV lo hi ∧
    (Buffer.getitem demoBuffer (.slice (some 0) (some 3) (some 2))).isOk = true :=
  ⟨rfl, rfl, rfl, rfl⟩

/-- C2: compile_regex is not memoized: the lru_cache line above it is
never applied as a decorator, so two calls with the same pattern text
parse twice and return distinct pattern objects rather than one cached
object. -/
theorem compile_regex_reparses_every_call (p : String) (st : RegexModuleState) :
    ((compile_regex p ((compile_regex p st).2)).1 ≠ (compile_regex p st).1) ∧
    ((compile_regex p ((compile_regex p st).2)).2).parseCount = st.parseCount + 2 := by
  refine ⟨fun h => ?_, rfl⟩
  have h2 : st.parseCount + 1 = st.parseCount := congrArg PyRegex.objId h
  omega

/-- C3: the contains dispatch at concrete inputs: a str needle works, but
a View needle (a wrapper ArcStr) is routed to the PyArcStr constructor and
fails with TypeError, and a raw PyArcStr needle fails with AttributeError
on the name-mangled attribute, so contains does not accept another
View. -/
theorem contains_view_needle_fails :
    ArcStr.contains thisView (.text (strBytes " is ")) 1 = .ok true ∧
    ArcStr.contains thisView (.wrapperView isView) 1 =
      .error (.typeError "argument must be str") ∧
    ArcStr.contains thisView (.rawView isView) 1 =
      .error (.attributeError "_ArcStr__arc_str") :=
  ⟨rfl, rfl, rfl⟩

/-- C8: for Views sharing an Arena, rel_position returns the signed
difference of start offsets and is antisymmetric. -/
theorem rel_position_antisymmetric (x y : View) (h : x.arena.id = y.arena.id) :
    x.rel_position y = .ok ((x.start : Int) - (y.start : Int)) ∧
    y.rel_position x = .ok ((y.start : Int) - (x.start : Int)) ∧
    ((x.start : Int) - (y.start : Int)) = -((y.start : Int) - (x.start : Int)) := by
  refine ⟨?_, ?_, by ring⟩
  · simp [View.rel_position, h]
  · simp [View.rel_position, h.symm]

/-- C8 witness: the two demo line Views share the demo Arena, line 0
rel_position line 1 is -6 and line 1 rel_position line 0 is 6. -/
theorem rel_position_antisymmetric_witness :
    demoLine0.arena.id = demoLine1.arena.id ∧
    demoLine0.rel_position demoLine1 = .ok (-6) ∧
    demoLine1.rel_position demoLine0 = .ok 6 :=
  ⟨rfl,
   ((rel_position_antisymmetric demoLine0 demoLine1 rfl).1).trans
     (by norm_num [demoLine0, demoLine1]),
   ((rel_position_antisymmetric demoLine0 demoLine1 rfl).2.1).trans
     (by norm_num [demoLine0, demoLine1])⟩

/-- C9: rel_position between Views backed by different Arenas surfaces
CrossArenaError at the point of the call. -/
theorem rel_position_cross_arena_error (x y : View) (h : x.arena.id ≠ y.arena.id) :
    x.rel_position y = .error .crossArenaError := by
  simp [View.rel_position, h]

/-- C9 witness: two one-byte Views over arenas with distinct identities. -/
theorem rel_position_cross_arena_error_witness :
    (⟨demoArena, 0, 1⟩ : View).arena.id ≠ (⟨otherArena, 0, 1⟩ : View).arena.id ∧
    View.rel_position ⟨demoArena, 0, 1⟩ ⟨otherArena, 0, 1⟩ = .error .crossArenaError :=
  ⟨by decide, rel_position_cross_arena_error _ _ (by decide)⟩

/-- C10: indexing a Buffer, and in the py-bind variant a View, with an
argument that is neither an int nor a slice raises IndexError, not
TypeError, with a message naming the offending index type. -/
theorem invalid_index_type_raises (b : Buffer) (v : View) (t : String) :
    Buffer.getitem b (.other t) = .error (.indexError ("Invalid index type: " ++ t)) ∧
    ArcStr.getitem v (.other t) = .error (.indexError ("Invalid index type: " ++ t)) :=
  ⟨rfl, rfl⟩

/-- Taking as many elements as takeWhile keeps recovers takeWhile. -/
theorem take_len_takeWhile (p : Nat → Bool) (l : List Nat) :
    l.take (l.takeWhile p).length = l.takeWhile p := by
  induction l with
  | nil => rfl
  | cons b t ih =>
    by_cases hb : p b
    · simp [List.takeWhile_cons, hb, ih]
    · simp [List.takeWhile_cons, hb]

/-- Dropping as many elements as takeWhile keeps leaves dropWhile. -/
theorem drop_len_takeWhile (p : Nat → Bool) (l : List Nat) :
    l.drop (l.takeWhile p).length = l.dropWhile p := by
  induction l with
  | nil => rfl
  | cons b t ih =>
    by_cases hb : p b
    · simp [List.takeWhile_cons, List.dropWhile_cons, hb, ih]
    · simp [List.takeWhile_cons, List.dropWhile_cons, hb]

/-- Taking one element at a position holding b yields the singleton b. -/
theorem take_one_drop (l : List Nat) (k b : Nat) (h : l[k]? = some b) :
    (l.drop k).take 1 = [b] := by
  induction l generalizing k with
  | nil => simp at h
  | cons x t ih =>
    cases k with
    | zero =>
      simp only [List.getElem?_cons_zero, Option.some.injEq] at h
      subst h
      rfl
    | succ k2 =>
      simpa using ih k2 (by simpa using h)

/-- C4 counterexample: over the two-byte content of one accented codepoint
the whole view has char_count 1, so 0 is its only valid index, yet
indexing with 0 requests the one-byte slice from 0 to 1, whose cut falls
inside the codepoint, and the operation returns RangeError instead of a
one-codepoint View. -/
theorem int_index_multibyte_cx :
    View.char_count ⟨⟨0, [195, 169]⟩, 0, 2⟩ = 1 ∧
    ArcStr.getitem ⟨⟨0, [195, 169]⟩, 0, 2⟩ (.int 0) = .error .rangeError ∧
    (ArcStr.getitem ⟨⟨0, [195, 169]⟩, 0, 2⟩ (.int 0)).isOk = false :=
  ⟨rfl, rfl, rfl⟩

/-- C4 amended: an int index i requests the one-byte sub-view from
start+i to start+i+1; when the addressed byte is a one-byte (ASCII)
codepoint inside the view and the next position is again a codepoint
boundary, the result is a View of exactly one codepoint, while an index
addressing a multi-byte codepoint instead fails with RangeError, as the
counterexample shows. -/
theorem int_index_single_byte (v : View) (i : Int) (byt : Nat)
    (h0 : 0 ≤ i)
    (h1 : v.start + i.toNat < v.stop)
    (h2 : v.stop ≤ v.arena.content.length)
    (h3 : v.arena.content[v.start + i.toNat]? = some byt)
    (h4 : byt < 128)
    (h5 : isCharBoundary v.arena.content (v.start + i.toNat + 1) = true) :
    ArcStr.getitem v (.int i) =
      .ok ⟨v.arena, v.start + i.toNat, v.start + i.toNat + 1⟩ ∧
    View.char_count ⟨v.arena, v.start + i.toNat, v.start + i.toNat + 1⟩ = 1 := by
  have hb0 : isCharBoundary v.arena.content (v.start + i.toNat) = true := by
    unfold isCharBoundary
    rw [h3]
    simp [isCont]
    omega
  constructor
  · show v.sliceV (some i) (some (i + 1)) = _
    have ht : (i + 1).toNat = i.toNat + 1 := by omega
    simp only [View.sliceV, Option.getD_some, ht]
    rw [if_neg (by omega)]
    unfold View.sliceCore
    rw [if_neg (by omega), if_neg (by omega), if_neg (by push_neg; exact ⟨hb0, h5⟩)]
    simp [Nat.add_assoc]
  · unfold View.char_count materializeV materializeRange
    simp only
    have harith : v.start + i.toNat + 1 - (v.start + i.toNat) = 1 := by omega
    rw [harith, take_one_drop _ _ _ h3]
    unfold charCountBytes
    have hc : isCont byt = false := by
      unfold isCont
      simp
      omega
    simp [hc]

/-- C4 witness: index 0 of a two-byte ASCII view is the one-codepoint
one-byte View from 0 to 1. -/
theorem int_index_single_byte_witness :
    (⟨⟨0, strBytes "ab"⟩, 0, 2⟩ : View).arena.content[0]? = some 97 ∧
    ArcStr.getitem ⟨⟨0, strBytes "ab"⟩, 0, 2⟩ (.int 0) = .ok ⟨⟨0, strBytes "ab"⟩, 0, 1⟩ ∧
    View.char_count ⟨⟨0, strBytes "ab"⟩, 0, 1⟩ = 1 := by
  have h := int_index_single_byte ⟨⟨0, strBytes "ab"⟩, 0, 2⟩ 0 97 (by decide)
    (by decide) (by decide) (by decide) (by decide) (by decide)
  exact ⟨by decide, h.1, h.2⟩

/-- C7: a successful split_at yields adjacent Views partitioning the
range: the first stops where the second starts and their materializations
concatenate to the materialization of the whole view. -/
theorem split_at_partition (v : View) (pos : Int) (a b : View)
    (h : v.split_at pos = .ok (a, b)) :
    a.stop = b.start ∧ materializeV a ++ materializeV b = materializeV v := by
  unfold View.split_at at h
  by_cases h1 : pos < 0 ∨ v.stop < v.start + pos.toNat
  · rw [if_pos h1] at h
    exact absurd h (by simp)
  · rw [if_neg h1] at h
    by_cases h2 : ¬ isCharBoundary v.arena.content (v.start + pos.toNat) = true
    · rw [if_pos h2] at h
      exact absurd h (by simp)
    · rw [if_neg h2] at h
      simp only [Except.ok.injEq, Prod.mk.injEq] at h
      obtain ⟨ha, hb⟩ := h
      subst ha hb
      push_neg at h1
      refine ⟨rfl, ?_⟩
      unfold materializeV materializeRange
      simp only
      have e1 : v.start + pos.toNat - v.start = pos.toNat := by omega
      have e2 : v.stop - v.start = pos.toNat + (v.stop - (v.start + pos.toNat)) := by
        omega
      rw [e1, e2, List.take_add, List.drop_drop]

/-- C7 witness: splitting the sentence demo view at 4 gives adjacent parts
whose bytes concatenate to the whole view. -/
theorem split_at_partition_witness :
    (⟨thisArena, 0, 4⟩ : View).stop = (⟨thisArena, 4, 11⟩ : View).start ∧
    materializeV ⟨thisArena, 0, 4⟩ ++ materializeV ⟨thisArena, 4, 11⟩ =
      materializeV thisView :=
  split_at_partition thisView 4 ⟨thisArena, 0, 4⟩ ⟨thisArena, 4, 11⟩ rfl


/-- The ranges recorded by the LineIndex scan materialize, against any
content whose suffix at pos is the scanned input, to exactly the lines of
the scanned input. -/
theorem lineRangesF_map (fuel : Nat) :
    ∀ (s full : List Nat) (pos : Nat), s.length ≤ fuel → full.drop pos = s →
      (lineRangesF fuel s pos).map (materializeRange full) = linesOfF fuel s := by
  induction fuel with
  | zero =>
    intro s full pos hle hdrop
    cases s with
    | nil => rfl
    | cons b t => simp at hle
  | succ n ih =>
    intro s full pos hle hdrop
    cases s with
    | nil => rfl
    | cons b t =>
      simp only [lineRangesF, linesOfF, List.map_cons, List.cons.injEq]
      refine ⟨?_, ?_⟩
      · unfold materializeRange
        simp only
        rw [Nat.add_sub_cancel_left, hdrop]
        exact take_len_takeWhile _ _
      · have e1 : full.drop
            (pos + ((b :: t).takeWhile (fun x => x != nlByte)).length + 1) =
            ((full.drop pos).drop
              ((b :: t).takeWhile (fun x => x != nlByte)).length).drop 1 := by
          rw [List.drop_drop, List.drop_drop, Nat.add_assoc]
        have hdrop2 : full.drop
            (pos + ((b :: t).takeWhile (fun x => x != nlByte)).length + 1) =
            ((b :: t).dropWhile (fun x => x != nlByte)).drop 1 := by
          rw [e1, hdrop, drop_len_takeWhile]
        have hlen : (((b :: t).dropWhile (fun x => x != nlByte)).drop 1).length ≤ n := by
          have h2 := (List.dropWhile_sublist (fun x => x != nlByte)
            (l := b :: t)).length_le
          simp only [List.length_drop, List.length_cons] at h2 ⊢
          simp only [List.length_cons] at hle
          omega
        exact ih _ full _ hlen hdrop2

/-- Materializing the LineIndex ranges of a content recovers its lines. -/
theorem lineRanges_map (content : List Nat) :
    (lineRanges content).map (materializeRange content) = linesOf content :=
  lineRangesF_map content.length content content 0 le_rfl rfl

/-- The LineIndex has one range per line. -/
theorem lineRanges_length (content : List Nat) :
    (lineRanges content).length = (linesOf content).length := by
  rw [← lineRanges_map, List.length_map]

/-- C5: for a Buffer built from content with k lines, line access with
index i below k yields a View materializing to the i-th line, terminator
excluded, and line access at k fails with IndexError. -/
theorem buffer_get_returns_lines (content : List Nat) (aid i : Nat) :
    ((h : i < (linesOf content).length) →
      ∃ v, Buffer.getitem (mkBuffer content aid) (.int (i : Int)) = .ok (.str v) ∧
        materializeV v = (linesOf content).get ⟨i, h⟩) ∧
    Buffer.getitem (mkBuffer content aid) (.int ((linesOf content).length : Int)) =
      .error (.indexError "index out of range") := by
  constructor
  · intro h
    have hlen := lineRanges_length content
    have hi : i < (lineRanges content).length := by omega
    refine ⟨⟨⟨aid, content⟩, ((lineRanges content).get ⟨i, hi⟩).1,
      ((lineRanges content).get ⟨i, hi⟩).2⟩, ?_, ?_⟩
    · show ((mkBuffer content aid).get (i : Int)).map BufItem.str = _
      unfold Buffer.get mkBuffer
      simp only
      rw [if_pos ⟨Int.natCast_nonneg i, by exact_mod_cast hi⟩]
      have hidx : (lineRanges content)[(0 : Nat) + ((i : Int)).toNat]? =
          some ((lineRanges content).get ⟨i, hi⟩) := by
        simp only [Int.toNat_natCast, Nat.zero_add]
        rw [List.getElem?_eq_getElem hi, List.get_eq_getElem]
      rw [hidx]
      rfl
    · show materializeRange content
        (((lineRanges content).get ⟨i, hi⟩).1, ((lineRanges content).get ⟨i, hi⟩).2) =
        (linesOf content).get ⟨i, h⟩
      have h1 : (linesOf content)[i]? = some ((linesOf content).get ⟨i, h⟩) := by
        rw [List.getElem?_eq_getElem h, List.get_eq_getElem]
      have h2 : (linesOf content)[i]? =
          some (materializeRange content ((lineRanges content).get ⟨i, hi⟩)) := by
        rw [← lineRanges_map, List.getElem?_map, List.getElem?_eq_getElem hi,
          List.get_eq_getElem]
        rfl
      have h3 := h1.symm.trans h2
      simp only [Option.some.injEq] at h3
      exact h3.symm
  · show ((mkBuffer content aid).get ((linesOf content).length : Int)).map
      BufItem.str = _
    unfold Buffer.get mkBuffer
    simp only
    rw [if_neg]
    · rfl
    · rintro ⟨-, hc⟩
      rw [lineRanges_length] at hc
      exact lt_irrefl _ hc

/-- C5 witness: the demo buffer has three lines; line 1 materializes to
the bytes of the second line and line access at 3 is an IndexError. -/
theorem buffer_get_returns_lines_witness :
    (∃ v, Buffer.getitem (mkBuffer (strBytes "Line1\nLine2\nLine3") 0) (.int 1) =
        .ok (.str v) ∧ materializeV v = strBytes "Line2") ∧
    Buffer.getitem (mkBuffer (strBytes "Line1\nLine2\nLine3") 0) (.int 3) =
      .error (.indexError "index out of range") := by
  have hlt : 1 < (linesOf (strBytes "Line1\nLine2\nLine3")).length := by decide
  obtain ⟨v, hv, hm⟩ :=
    (buffer_get_returns_lines (strBytes "Line1\nLine2\nLine3") 0 1).1 hlt
  refine ⟨⟨v, hv, ?_⟩, ?_⟩
  · rw [hm, List.get_eq_getElem]
    have h9 : (linesOf (strBytes "Line1\nLine2\nLine3"))[1]? =
        some (strBytes "Line2") := by decide
    have h10 := List.getElem?_eq_getElem
      (l := linesOf (strBytes "Line1\nLine2\nLine3")) (n := 1) hlt
    rw [h9] at h10
    simp only [Option.some.injEq] at h10
    exact h10.symm
  · exact (buffer_get_returns_lines (strBytes "Line1\nLine2\nLine3") 0 1).2

/-- Dropping lo inside a window taken after off and re-taking K elements,
K within the window remainder, is the same as taking K from position
off + lo. -/
theorem drop_take_window (l : List (Nat × Nat)) (off cnt lo K : Nat)
    (hK : K ≤ cnt - lo) :
    (((l.drop off).take cnt).drop lo).take K = (l.drop (off + lo)).take K := by
  rw [List.drop_take, List.drop_drop, List.take_take, min_eq_left hK]

/-- C6: for bounds 0 at most lo at most hi, a Buffer slice request returns
a new Buffer sharing the Arena and LineIndex whose lines are the parent
lines from lo up to min hi line_count, hi being clamped rather than an
error, and the request fails with RangeError when lo is negative or
exceeds hi. -/
theorem buffer_slice_clamps (b : Buffer) (lo hi : Int) :
    (0 ≤ lo → lo ≤ hi →
      ∃ b2, Buffer.getitem b (.slice (some lo) (some hi) none) = .ok (.buf b2) ∧
        b2.arena = b.arena ∧ b2.lineIndex = b.lineIndex ∧
        bufLines b2 =
          ((bufLines b).drop lo.toNat).take (min hi.toNat b.lineCount - lo.toNat)) ∧
    ((lo < 0 ∨ hi < lo) →
      Buffer.getitem b (.slice (some lo) (some hi) none) = .error .rangeError) := by
  have hred : Buffer.getitem b (.slice (some lo) (some hi) none) =
      (b.sliceB (some lo) (some hi)).map BufItem.buf := rfl
  constructor
  · intro h0 h1
    refine ⟨{ b with
              lineOffset := b.lineOffset + lo.toNat
              lineCount := min hi.toNat b.lineCount - lo.toNat }, ?_, rfl, rfl, ?_⟩
    · rw [hred]
      unfold Buffer.sliceB
      simp only [Option.getD_some]
      rw [if_neg (by omega)]
      rfl
    · unfold bufLines
      dsimp only
      rw [← List.map_drop, ← List.map_take,
        drop_take_window b.lineIndex b.lineOffset b.lineCount lo.toNat
          (min hi.toNat b.lineCount - lo.toNat) (by omega)]
  · intro h2
    rw [hred]
    unfold Buffer.sliceB
    simp only [Option.getD_some]
    rw [if_pos h2]
    rfl

/-- C6 witness: slicing the three-line demo buffer with bounds 1 and 4
clamps hi and yields the buffer of the last two lines. -/
theorem buffer_slice_clamps_witness :
    ((0 : Int) ≤ 1 ∧ (1 : Int) ≤ 4) ∧
    (∃ b2, Buffer.getitem demoBuffer (.slice (some 1) (some 4) none) =
        .ok (.buf b2) ∧
      b2.arena = demoBuffer.arena ∧ b2.lineIndex = demoBuffer.lineIndex ∧
      bufLines b2 =
        ((bufLines demoBuffer).drop (1 : Int).toNat).take
          (min (4 : Int).toNat demoBuffer.lineCount - (1 : Int).toNat)) ∧
    ((bufLines demoBuffer).drop (1 : Int).toNat).take
        (min (4 : Int).toNat demoBuffer.lineCount - (1 : Int).toNat) =
      [strBytes "Line2", strBytes "Line3"] :=
  ⟨⟨by norm_num, by norm_num⟩,
   (buffer_slice_clamps demoBuffer 1 4).1 (by norm_num) (by norm_num),
   by decide⟩
